import Mathlib

/-!
Shallow embedding of the money-flow aggregation pipeline of `963.py`.

Numeric cells that may be missing (pandas `NaN`) are modelled as `Option ℚ`
(`none` = NaN); arithmetic on them propagates `none`, matching IEEE NaN
propagation for the operations the script uses.  A pandas `DataFrame` of
daily bars is a list of `Bar` records together with a flag recording
whether the high-price column `h` is present.
-/

namespace MoneyFlow

/-- One daily OHLCV bar: columns `代码` (instrument code), `板块` (sector),
`date`, `h`, `l`, `c` and `v` of the frame built by
`get_all_sectors_historical_data_yf`.  The volume may be missing. -/
structure Bar where
  code : String
  sector : String
  date : ℤ
  h : ℚ
  l : ℚ
  c : ℚ
  v : Option ℚ

deriving instance DecidableEq, Repr for Bar

/-- Input frame of `calculate_money_flow`: its rows, and whether the
column `h` is present (the function checks `'h' not in df.columns`). -/
structure DataFrame where
  hasH : Bool
  rows : List Bar

deriving instance DecidableEq, Repr for DataFrame

/-- Sort key of `df_copy.sort_values(by=['代码', 'date'])`: lexicographic
order on (code, date).  Strings are compared by the lexicographic order
on their character sequences (`String.lt_iff_toList_lt`), stated on
`.data` directly so that the order evaluates inside the kernel. -/
def barLE (a b : Bar) : Prop :=
  a.code.data < b.code.data ∨ (a.code = b.code ∧ a.date ≤ b.date)

instance : DecidableRel barLE := fun a b => by
  unfold barLE; infer_instance

instance : IsTotal Bar barLE := by
  constructor
  intro a b
  rcases lt_trichotomy a.code.data b.code.data with hc | hc | hc
  · exact Or.inl (Or.inl hc)
  · have hcc : a.code = b.code := String.toList_inj.mp hc
    rcases le_total a.date b.date with hd | hd
    · exact Or.inl (Or.inr ⟨hcc, hd⟩)
    · exact Or.inr (Or.inr ⟨hcc.symm, hd⟩)
  · exact Or.inr (Or.inl hc)

instance : IsTrans Bar barLE := by
  constructor
  intro a b c hab hbc
  rcases hab with h₁ | ⟨h₁, h₁d⟩
  · rcases hbc with h₂ | ⟨h₂, _⟩
    · exact Or.inl (h₁.trans h₂)
    · exact Or.inl (h₂ ▸ h₁)
  · rcases hbc with h₂ | ⟨h₂, h₂d⟩
    · exact Or.inl (h₁ ▸ h₂)
    · exact Or.inr ⟨h₁.trans h₂, h₁d.trans h₂d⟩

/-- Embedding of `df_copy.sort_values(by=['代码', 'date'])`. -/
def sortBars (l : List Bar) : List Bar :=
  List.insertionSort barLE l

/-- Embedding of `(df_copy['h'] + df_copy['l'] + df_copy['c']) / 3`. -/
def typical_price (b : Bar) : ℚ :=
  (b.h + b.l + b.c) / 3

/-- Embedding of `np.sign` on a non-NaN value. -/
def sign (x : ℚ) : ℚ :=
  if x < 0 then -1 else if 0 < x then 1 else 0

/-- NaN-propagating product (IEEE: any operand NaN gives NaN). -/
def omul (a b : Option ℚ) : Option ℚ :=
  a.bind fun x => b.map fun y => x * y

/-- One row of the frame returned by `calculate_money_flow`: the input
bar plus the columns `typical_price`, `price_change`, `flow_direction`
and `money_flow_volume` added by the function. -/
structure FlowRow where
  bar : Bar
  typical_price : ℚ
  price_change : Option ℚ
  flow_direction : Option ℚ
  money_flow_volume : Option ℚ

deriving instance DecidableEq, Repr for FlowRow

/-- Build the added columns of one row, given the previous bar of the
same instrument (`none` for the first bar of a group, where
`groupby('代码').diff()` yields NaN). -/
def mkFlowRow (prev : Option Bar) (b : Bar) : FlowRow :=
  let tp := typical_price b
  let pc : Option ℚ := prev.map fun p => tp - typical_price p
  let dir : Option ℚ := pc.map sign
  { bar := b
    typical_price := tp
    price_change := pc
    flow_direction := dir
    money_flow_volume := omul (omul dir (some tp)) b.v }

/-- Latest bar of instrument `c` in the already-processed prefix: the
row `groupby('代码')['typical_price'].diff()` differences against. -/
def lastSameCode (c : String) (l : List Bar) : Option Bar :=
  l.foldl (fun acc b => if b.code = c then some b else acc) none

/-- Add the derived columns to every row of the (sorted) frame; `seen`
is the prefix of rows already processed, in frame order. -/
def addFlowColsAux (seen : List Bar) : List Bar → List FlowRow
  | [] => []
  | b :: t => mkFlowRow (lastSameCode b.code seen) b :: addFlowColsAux (seen ++ [b]) t

/-- Embedding of `calculate_money_flow`: empty output on an empty frame
or a frame without the `h` column; otherwise sort by (code, date) and
add `typical_price`, `price_change`, `flow_direction`,
`money_flow_volume`. -/
def calculate_money_flow (df : DataFrame) : List FlowRow :=
  if df.rows.isEmpty ∨ df.hasH = false then []
  else addFlowColsAux [] (sortBars df.rows)

/-- Statement-by-statement run of `calculate_money_flow` that also
returns the final state of the caller's frame: the body only ever
assigns into `df_copy = df.copy()`, so the input object is returned
untouched. -/
def calculate_money_flow_run (df : DataFrame) : DataFrame × List FlowRow :=
  if df.rows.isEmpty ∨ df.hasH = false then (df, [])
  else
    let df_copy := df.rows
    let df_copy := sortBars df_copy
    (df, addFlowColsAux [] df_copy)

/-- Previous bar used by the diff when it is the immediately preceding
row: kept only when it belongs to the same instrument. -/
def prevInGroup (p : Option Bar) (b : Bar) : Option Bar :=
  match p with
  | none => none
  | some a => if a.code = b.code then some a else none

/-- Adjacent-difference formulation of the column construction: each
row is differenced against the immediately preceding row when that row
has the same code.  On a frame sorted by (code, date) this coincides
with `addFlowColsAux` (proved below), which is the grouping invariant. -/
def adjFlow (p : Option Bar) : List Bar → List FlowRow
  | [] => []
  | b :: t => mkFlowRow (prevInGroup p b) b :: adjFlow (some b) t

/-- Values of a column that are present (pandas drops NaN before
aggregating: `skipna=True`). -/
def definedVals (l : List (Option ℚ)) : List ℚ :=
  l.filterMap id

/-- Pandas `sum` with `skipna`: the sum of the defined values, `0` when
there are none. -/
def sumO (l : List (Option ℚ)) : ℚ :=
  (definedVals l).sum

/-- Pandas `mean` with `skipna`: NaN when no value is defined. -/
def meanO (l : List (Option ℚ)) : Option ℚ :=
  if definedVals l = [] then none
  else some ((definedVals l).sum / (definedVals l).length)

/-- Square of pandas `std` (`ddof=1`): the sample variance of the
defined values, NaN when fewer than two are defined.  The script
reports the square root of this quantity; the square root of a rational
need not be rational, so the development states every property of the
`流量波动` column at the level of its square. -/
def varO (l : List (Option ℚ)) : Option ℚ :=
  let dv := definedVals l
  if dv.length ≤ 1 then none
  else some (((dv.map fun x => (x - dv.sum / dv.length) ^ 2).sum) / ((dv.length : ℚ) - 1))

/-- Embedding of `lambda x: (x > 0).sum()` (NaN compares false). -/
def posDays (l : List (Option ℚ)) : ℕ :=
  l.countP fun x => match x with
    | some y => decide (0 < y)
    | none => false

/-- Embedding of `lambda x: (x < 0).sum()` (NaN compares false). -/
def negDays (l : List (Option ℚ)) : ℕ :=
  l.countP fun x => match x with
    | some y => decide (y < 0)
    | none => false

/-- Row test of `pd.to_datetime(df['date']) >= start_date`. -/
def inWindow (cutoff : ℤ) (r : FlowRow) : Bool :=
  decide (cutoff ≤ r.bar.date)

/-- Embedding of the trailing-window filter producing `df_filtered`. -/
def df_filtered (cutoff : ℤ) (l : List FlowRow) : List FlowRow :=
  l.filter (inWindow cutoff)

/-- Group keys of `df_filtered.groupby('板块')`: the distinct sectors,
in sorted order (pandas sorts group keys). -/
def sectorsOf (l : List FlowRow) : List String :=
  List.insertionSort (fun a b : String => a.data ≤ b.data) (l.map fun r => r.bar.sector).dedup

/-- The `money_flow_volume` series of one sector's group, in frame
order. -/
def sectorFlows (s : String) (l : List FlowRow) : List (Option ℚ) :=
  (l.filter fun r => decide (r.bar.sector = s)).map fun r => r.money_flow_volume

/-- One row of `df_summary`: the five aggregates of `summary_agg`
(`累计净流量`, `日均流量`, `流量波动` — kept as its square, see `varO` —
`净流入天数`, `净流出天数`). -/
structure SummaryRow where
  sector : String
  netFlow : ℚ
  meanFlow : Option ℚ
  varFlow : Option ℚ
  posCount : ℕ
  negCount : ℕ

deriving instance DecidableEq, Repr for SummaryRow

/-- Aggregate one sector's group of `l` as `summary_agg` does. -/
def summaryRowFor (l : List FlowRow) (s : String) : SummaryRow :=
  let fs := sectorFlows s l
  { sector := s
    netFlow := sumO fs
    meanFlow := meanO fs
    varFlow := varO fs
    posCount := posDays fs
    negCount := negDays fs }

/-- Embedding of `df_filtered.groupby('板块').agg(**summary_agg)`. -/
def df_summary (cutoff : ℤ) (df : DataFrame) : List SummaryRow :=
  let fl := df_filtered cutoff (calculate_money_flow df)
  (sectorsOf fl).map (summaryRowFor fl)

/-- Embedding of `df_summary['市值'].replace(0, np.nan)`. -/
def replaceZeroCap (m : Option ℚ) : Option ℚ :=
  if m = some 0 then none else m

/-- Embedding of `df_summary['资金流强度(%)'] = (累计净流量 / 市值) * 100`,
with the market cap looked up via `.map(market_caps)` (a sector absent
from the dict yields NaN). -/
def strengthOf (caps : String → Option ℚ) (r : SummaryRow) : Option ℚ :=
  (replaceZeroCap (caps r.sector)).map fun m => r.netFlow / m * 100

/-- Summary rows paired with the flow-strength column. -/
def df_summary_strength (caps : String → Option ℚ) (cutoff : ℤ) (df : DataFrame) :
    List (SummaryRow × Option ℚ) :=
  (df_summary cutoff df).map fun r => (r, strengthOf caps r)

/-- Running sum with `skipna`: a NaN cell stays NaN and does not change
the accumulator, as in pandas `groupby.cumsum()`. -/
def cumsumAux (acc : ℚ) : List (Option ℚ) → List (Option ℚ)
  | [] => []
  | none :: t => none :: cumsumAux acc t
  | some x :: t => some (acc + x) :: cumsumAux (acc + x) t

/-- Pandas `cumsum` over one group's series. -/
def cumsumO (l : List (Option ℚ)) : List (Option ℚ) :=
  cumsumAux 0 l

/-- Embedding of the `cumulative_flow` column
(`df_filtered.groupby('板块')['money_flow_volume'].cumsum()`) restricted
to the rows of sector `s`, in frame order. -/
def cumulative_flow (cutoff : ℤ) (df : DataFrame) (s : String) : List (Option ℚ) :=
  cumsumO (sectorFlows s (df_filtered cutoff (calculate_money_flow df)))

instance : IsRefl Bar barLE :=
  ⟨fun a => Or.inr ⟨rfl, le_refl a.date⟩⟩

/-- The (code, date) key of a bar; a daily bar series has one bar per
key. -/
def barKey (b : Bar) : List Char × ℤ :=
  (b.code.data, b.date)

/-- Strict part of the sort order: the keys are strictly smaller. -/
def barLT (a b : Bar) : Prop :=
  a.code.data < b.code.data ∨ (a.code = b.code ∧ a.date < b.date)

instance : IsAntisymm Bar barLT := by
  constructor
  intro a b hab hba
  exfalso
  rcases hab with h₁ | ⟨h₁, h₁d⟩ <;> rcases hba with h₂ | ⟨h₂, h₂d⟩
  · exact lt_asymm h₁ h₂
  · exact lt_irrefl _ (h₂ ▸ h₁)
  · exact lt_irrefl _ (h₁ ▸ h₂)
  · exact lt_asymm h₁d h₂d

/-! Concrete frames used to evaluate the pipeline on explicit inputs. -/

/-- Bar A/day 1: typical price (2+1+3)/3 = 2, volume 7. -/
def bA0 : Bar := ⟨"A", "T", 1, 2, 1, 3, some 7⟩

/-- Bar A/day 2: typical price (4+2+3)/3 = 3, volume 5. -/
def bA1 : Bar := ⟨"A", "T", 2, 4, 2, 3, some 5⟩

/-- Two-bar frame of one instrument, rows deliberately out of date
order. -/
def dfA : DataFrame := ⟨true, [bA1, bA0]⟩

/-- The same frame with its rows permuted. -/
def dfA2 : DataFrame := ⟨true, [bA0, bA1]⟩

/-- Expected first output row of `calculate_money_flow dfA`. -/
def rA0 : FlowRow := ⟨bA0, 2, none, none, none⟩

/-- Expected second output row of `calculate_money_flow dfA`. -/
def rA1 : FlowRow := ⟨bA1, 3, some 1, some 1, some 15⟩

/-- A bar of a second instrument, for cross-instrument adjacency. -/
def bB0 : Bar := ⟨"B", "U", 1, 7, 4, 4, some 2⟩

/-- Frame with two instruments of one bar each: after sorting they are
adjacent rows of different codes. -/
def dfB : DataFrame := ⟨true, [bB0, bA0]⟩

/-- Expected output row of `bB0` in `calculate_money_flow dfB`: typical
price (7+4+4)/3 = 5, no previous bar of code `"B"`. -/
def rB0 : FlowRow := ⟨bB0, 5, none, none, none⟩

/-- A bar of an instrument with a single observation. -/
def bS : Bar := ⟨"A", "T", 1, 3, 3, 3, some 5⟩

/-- Single-bar frame: its only instrument has one observation. -/
def dfS : DataFrame := ⟨true, [bS]⟩

/-- Expected output row of `calculate_money_flow dfS`: NaN flow. -/
def rS0 : FlowRow := ⟨bS, 3, none, none, none⟩

/-- First bar of a series with negative prices: typical price -9. -/
def bN0 : Bar := ⟨"N", "V", 1, -9, -9, -9, some 1⟩

/-- Second bar of the negative-price series: typical price -6. -/
def bN1 : Bar := ⟨"N", "V", 2, -6, -6, -6, some 1⟩

/-- Two bars with strictly increasing but negative typical prices
(-9 then -6) and positive volume. -/
def dfN : DataFrame := ⟨true, [bN0, bN1]⟩

/-- Expected first output row of `calculate_money_flow dfN`. -/
def rN0 : FlowRow := ⟨bN0, -9, none, none, none⟩

/-- Expected second output row of `calculate_money_flow dfN`: the flow
is negative although the typical price rose. -/
def rN1 : FlowRow := ⟨bN1, -6, some 3, some 1, some (-6)⟩

/-- Day-1 bar of the zero-volume example, volume 4. -/
def bZ0 : Bar := ⟨"Z", "W", 1, 3, 3, 3, some 4⟩

/-- Day-2 bar of the zero-volume example: price rises, volume 0. -/
def bZ1 : Bar := ⟨"Z", "W", 2, 6, 6, 6, some 0⟩

/-- Two bars of one instrument whose second day has zero volume and a
rising price. -/
def dfZ : DataFrame := ⟨true, [bZ0, bZ1]⟩

/-- Expected first output row of `calculate_money_flow dfZ`. -/
def rZ0 : FlowRow := ⟨bZ0, 3, none, none, none⟩

/-- Expected second output row of `calculate_money_flow dfZ`: rising
price but zero volume, so zero flow. -/
def rZ1 : FlowRow := ⟨bZ1, 6, some 3, some 1, some 0⟩

/-- Expected summary row of sector `"T"` over `dfA` with cutoff 0: one
defined flow value 15. -/
def rT : SummaryRow := ⟨"T", 15, some 15, none, 1, 0⟩

/-- A market-cap table defined on sector `"T"` only. -/
def capsT : String → Option ℚ :=
  fun s => if s = "T" then some 200 else none

/-! Basic facts about the row construction. -/

theorem mkFlowRow_bar (p : Option Bar) (b : Bar) : (mkFlowRow p b).bar = b := rfl

theorem mkFlowRow_none_flow (b : Bar) :
    (mkFlowRow none b).money_flow_volume = none := rfl

theorem mkFlowRow_some_flow (p b : Bar) :
    (mkFlowRow (some p) b).money_flow_volume
      = b.v.map fun y => sign (typical_price b - typical_price p) * typical_price b * y := rfl

theorem mkFlowRow_some_pc (p b : Bar) :
    (mkFlowRow (some p) b).price_change = some (typical_price b - typical_price p) := rfl

theorem mkFlowRow_none_pc (b : Bar) : (mkFlowRow none b).price_change = none := rfl

theorem addFlowColsAux_bars (l : List Bar) :
    ∀ seen, (addFlowColsAux seen l).map (fun r => r.bar) = l := by
  induction l with
  | nil => intro seen; rfl
  | cons b t ih => intro seen; simp [addFlowColsAux, mkFlowRow_bar, ih]

theorem lastSameCode_concat (c : String) (l : List Bar) (a : Bar) :
    lastSameCode c (l ++ [a]) = if a.code = c then some a else lastSameCode c l := by
  simp [lastSameCode, List.foldl_append]

theorem foldl_lastSameCode_id (c : String) (l : List Bar) (h : ∀ b ∈ l, b.code ≠ c) :
    ∀ acc : Option Bar,
      l.foldl (fun acc b => if b.code = c then some b else acc) acc = acc := by
  induction l with
  | nil => intro acc; rfl
  | cons b t ih =>
    intro acc
    have hb : b.code ≠ c := h b (List.mem_cons_self b t)
    simp only [List.foldl_cons, if_neg hb]
    exact ih (fun x hx => h x (List.mem_cons_of_mem b hx)) acc

theorem lastSameCode_eq_none (c : String) (l : List Bar) (h : ∀ b ∈ l, b.code ≠ c) :
    lastSameCode c l = none :=
  foldl_lastSameCode_id c l h none

theorem barLE_code {a b : Bar} (h : barLE a b) : a.code.data ≤ b.code.data := by
  rcases h with h | ⟨h, _⟩
  · exact le_of_lt h
  · exact le_of_eq (by rw [h])

/-- On a frame sorted by (code, date), the bar the current row is
differenced against is exactly the immediately preceding row, kept only
when it has the same code: group rows are contiguous after sorting. -/
theorem lastSameCode_of_sorted (seen : List Bar) (b : Bar) (rest : List Bar)
    (hs : List.Sorted barLE (seen ++ b :: rest)) :
    lastSameCode b.code seen = prevInGroup seen.getLast? b := by
  rcases List.eq_nil_or_concat seen with rfl | ⟨init, a, rfl⟩
  · rfl
  · rw [List.concat_eq_append] at hs ⊢
    rw [lastSameCode_concat, List.getLast?_concat]
    by_cases hc : a.code = b.code
    · simp [prevInGroup, hc]
    · rw [if_neg hc]
      simp only [prevInGroup, if_neg hc]
      apply lastSameCode_eq_none
      intro x hx hxc
      rw [List.append_assoc] at hs
      rw [List.Sorted, List.pairwise_append] at hs
      have hxa : barLE x a := hs.2.2 x hx a (by simp)
      have hab : barLE a b := by
        have := hs.2.1
        rw [List.singleton_append, List.pairwise_cons] at this
        exact this.1 b (by simp)
      exact hc (String.toList_inj.mp (le_antisymm (barLE_code hab) (hxc ▸ barLE_code hxa)))

/-- On a sorted frame, the pandas groupby diff construction coincides
with differencing against the immediately preceding row guarded by code
equality. -/
theorem addFlowColsAux_eq_adjFlow :
    ∀ (l seen : List Bar), List.Sorted barLE (seen ++ l) →
      addFlowColsAux seen l = adjFlow seen.getLast? l := by
  intro l
  induction l with
  | nil => intro seen _; rfl
  | cons b t ih =>
    intro seen hs
    show mkFlowRow (lastSameCode b.code seen) b :: addFlowColsAux (seen ++ [b]) t
        = mkFlowRow (prevInGroup seen.getLast? b) b :: adjFlow (some b) t
    rw [lastSameCode_of_sorted seen b t hs]
    have hs' : List.Sorted barLE ((seen ++ [b]) ++ t) := by
      rw [List.append_assoc]; simpa using hs
    rw [ih (seen ++ [b]) hs', List.getLast?_concat]

theorem sortBars_sorted (l : List Bar) : List.Sorted barLE (sortBars l) :=
  List.sorted_insertionSort barLE l

theorem sortBars_perm (l : List Bar) : List.Perm (sortBars l) l :=
  List.perm_insertionSort barLE l

/-- On a nonempty frame that has the `h` column, `calculate_money_flow`
is the adjacent-difference construction over the sorted rows. -/
theorem calculate_money_flow_eq_adj (df : DataFrame)
    (h1 : df.rows.isEmpty = false) (h2 : df.hasH = true) :
    calculate_money_flow df = adjFlow none (sortBars df.rows) := by
  unfold calculate_money_flow
  rw [h1, h2]
  simp only [Bool.false_eq_true, or_self, if_false]
  rw [addFlowColsAux_eq_adjFlow (sortBars df.rows) [] (by simpa using sortBars_sorted df.rows)]
  rfl

theorem adjFlow_length (p : Option Bar) (l : List Bar) :
    (adjFlow p l).length = l.length := by
  induction l generalizing p with
  | nil => rfl
  | cons b t ih => simp [adjFlow, ih]

theorem adjFlow_get_zero (l : List Bar) (p : Option Bar) (h : 0 < l.length) :
    (adjFlow p l).get ⟨0, by rw [adjFlow_length]; exact h⟩
      = mkFlowRow (prevInGroup p (l.get ⟨0, h⟩)) (l.get ⟨0, h⟩) := by
  cases l with
  | nil => exact absurd h (by simp)
  | cons b t => rfl

theorem adjFlow_get_succ (l : List Bar) (p : Option Bar) (i : ℕ) (h : i + 1 < l.length) :
    (adjFlow p l).get ⟨i + 1, by rw [adjFlow_length]; exact h⟩
      = mkFlowRow (prevInGroup (some (l.get ⟨i, Nat.lt_of_succ_lt h⟩)) (l.get ⟨i + 1, h⟩))
          (l.get ⟨i + 1, h⟩) := by
  induction l generalizing p i with
  | nil => exact absurd h (Nat.not_lt_zero _)
  | cons b t ih =>
    cases i with
    | zero =>
      cases t with
      | nil => exact absurd h (by simp)
      | cons b₂ t₂ => rfl
    | succ j =>
      show (adjFlow (some b) t).get ⟨j + 1, _⟩ = _
      exact ih (some b) j (Nat.lt_of_succ_lt_succ h)

theorem adjFlow_get_is_mk (l : List Bar) (p : Option Bar) (i : ℕ) (h : i < l.length) :
    ∃ q, (adjFlow p l).get ⟨i, by rw [adjFlow_length]; exact h⟩ = mkFlowRow q (l.get ⟨i, h⟩) := by
  cases i with
  | zero => exact ⟨prevInGroup p (l.get ⟨0, h⟩), adjFlow_get_zero l p h⟩
  | succ j =>
    exact ⟨prevInGroup (some (l.get ⟨j, Nat.lt_of_succ_lt h⟩)) (l.get ⟨j + 1, h⟩),
      adjFlow_get_succ l p j h⟩

theorem adjFlow_get_bar (l : List Bar) (p : Option Bar) (i : ℕ) (h : i < l.length) :
    ((adjFlow p l).get ⟨i, by rw [adjFlow_length]; exact h⟩).bar = l.get ⟨i, h⟩ := by
  obtain ⟨q, hq⟩ := adjFlow_get_is_mk l p i h
  rw [hq, mkFlowRow_bar]

theorem adjFlow_get_tp (l : List Bar) (p : Option Bar) (i : ℕ) (h : i < l.length) :
    ((adjFlow p l).get ⟨i, by rw [adjFlow_length]; exact h⟩).typical_price
      = typical_price (l.get ⟨i, h⟩) := by
  obtain ⟨q, hq⟩ := adjFlow_get_is_mk l p i h
  rw [hq]; rfl

/-- In a frame sorted by (code, date) the rows of one instrument are
contiguous: a row lying between two rows of the same code has that
code. -/
theorem sorted_code_between {s : List Bar} (hs : List.Sorted barLE s)
    (k i j : ℕ) (hk : k < s.length) (hi : i < s.length) (hj : j < s.length)
    (hki : k ≤ i) (hij : i ≤ j)
    (hcode : (s.get ⟨k, hk⟩).code = (s.get ⟨j, hj⟩).code) :
    (s.get ⟨i, hi⟩).code = (s.get ⟨j, hj⟩).code := by
  have h₁ : barLE (s.get ⟨k, hk⟩) (s.get ⟨i, hi⟩) :=
    hs.rel_get_of_le (by exact hki)
  have h₂ : barLE (s.get ⟨i, hi⟩) (s.get ⟨j, hj⟩) :=
    hs.rel_get_of_le (by exact hij)
  exact String.toList_inj.mp (le_antisymm (barLE_code h₂) (hcode ▸ barLE_code h₁))

/-- C2: on any multi-instrument input, the day-over-day difference of
`typical_price` used by `calculate_money_flow` is computed only within
a single instrument's series: a defined `price_change` always
differences against the immediately preceding sorted row, which then
belongs to the same instrument, and two consecutive rows of different
instruments never produce a difference. -/
theorem claim_C2 (df : DataFrame) (h1 : df.rows.isEmpty = false) (h2 : df.hasH = true)
    (i j : ℕ) (hij : i + 1 = j) (ri rj : FlowRow)
    (hri : (calculate_money_flow df)[i]? = some ri)
    (hrj : (calculate_money_flow df)[j]? = some rj) :
    (∀ d : ℚ, rj.price_change = some d →
        ri.bar.code = rj.bar.code ∧ d = rj.typical_price - ri.typical_price)
      ∧ (ri.bar.code ≠ rj.bar.code → rj.price_change = none) := by
  subst hij
  have e := calculate_money_flow_eq_adj df h1 h2
  rw [e] at hri hrj
  obtain ⟨hjlen, hjv⟩ := List.getElem?_eq_some.mp hrj
  obtain ⟨hilen, hiv⟩ := List.getElem?_eq_some.mp hri
  have hj' : i + 1 < (sortBars df.rows).length := by
    rw [adjFlow_length] at hjlen; exact hjlen
  have hi' : i < (sortBars df.rows).length := Nat.lt_of_succ_lt hj'
  have hrjv : rj = mkFlowRow
      (prevInGroup (some ((sortBars df.rows).get ⟨i, hi'⟩))
        ((sortBars df.rows).get ⟨i + 1, hj'⟩))
      ((sortBars df.rows).get ⟨i + 1, hj'⟩) := by
    rw [← hjv]
    exact adjFlow_get_succ (sortBars df.rows) none i hj'
  have hribar : ri.bar = (sortBars df.rows).get ⟨i, hi'⟩ := by
    rw [← hiv]
    exact adjFlow_get_bar (sortBars df.rows) none i hi'
  have hritp : ri.typical_price = typical_price ((sortBars df.rows).get ⟨i, hi'⟩) := by
    rw [← hiv]
    exact adjFlow_get_tp (sortBars df.rows) none i hi'
  by_cases hc : ((sortBars df.rows).get ⟨i, hi'⟩).code
      = ((sortBars df.rows).get ⟨i + 1, hj'⟩).code
  · constructor
    · intro d hd
      rw [hrjv, prevInGroup, if_pos hc, mkFlowRow_some_pc] at hd
      refine ⟨by rw [hribar, hrjv, mkFlowRow_bar]; exact hc, ?_⟩
      rw [hrjv, hritp]
      have : rj.typical_price = typical_price ((sortBars df.rows).get ⟨i + 1, hj'⟩) := by
        rw [hrjv]; rfl
      rw [hrjv] at this
      exact (Option.some.inj hd).symm
    · intro hne
      exact absurd (by rw [hribar, hrjv, mkFlowRow_bar]; exact hc) hne
  · constructor
    · intro d hd
      rw [hrjv, prevInGroup, if_neg hc, mkFlowRow_none_pc] at hd
      exact absurd hd (Option.noConfusion)
    · intro _
      rw [hrjv, prevInGroup, if_neg hc, mkFlowRow_none_pc]

/-- C1: in the output of `calculate_money_flow`, every bar that is not
the first bar of its instrument (some earlier sorted row carries the
same code) gets `money_flow_volume = sign(tp[t] − tp[t−1]) * tp[t] *
v[t]`, where `tp[t−1]` is the instrument's previous bar, i.e. the
immediately preceding sorted row. -/
theorem claim_C1 (df : DataFrame) (h1 : df.rows.isEmpty = false) (h2 : df.hasH = true)
    (j : ℕ) (rj : FlowRow) (hrj : (calculate_money_flow df)[j]? = some rj)
    (hfirst : ∃ k rk, k < j ∧ (calculate_money_flow df)[k]? = some rk
      ∧ rk.bar.code = rj.bar.code)
    (vol : ℚ) (hv : rj.bar.v = some vol) :
    ∃ i ri, i + 1 = j ∧ (calculate_money_flow df)[i]? = some ri
      ∧ ri.bar.code = rj.bar.code
      ∧ rj.money_flow_volume
          = some (sign (rj.typical_price - ri.typical_price) * rj.typical_price * vol) := by
  obtain ⟨k, rk, hkj, hk, hkcode⟩ := hfirst
  have e := calculate_money_flow_eq_adj df h1 h2
  rw [e] at hrj hk
  obtain ⟨hjlen, hjv⟩ := List.getElem?_eq_some.mp hrj
  obtain ⟨hklen, hkv⟩ := List.getElem?_eq_some.mp hk
  obtain ⟨i, rfl⟩ : ∃ i, j = i + 1 :=
    ⟨j - 1, (Nat.succ_pred_eq_of_pos (Nat.lt_of_le_of_lt (Nat.zero_le k) hkj)).symm⟩
  have hj' : i + 1 < (sortBars df.rows).length := by
    rw [adjFlow_length] at hjlen; exact hjlen
  have hi' : i < (sortBars df.rows).length := Nat.lt_of_succ_lt hj'
  have hk' : k < (sortBars df.rows).length := Nat.lt_trans hkj hj'
  have hrjv : rj = mkFlowRow
      (prevInGroup (some ((sortBars df.rows).get ⟨i, hi'⟩))
        ((sortBars df.rows).get ⟨i + 1, hj'⟩))
      ((sortBars df.rows).get ⟨i + 1, hj'⟩) := by
    rw [← hjv]
    exact adjFlow_get_succ (sortBars df.rows) none i hj'
  have hrkbar : rk.bar = (sortBars df.rows).get ⟨k, hk'⟩ := by
    rw [← hkv]
    exact adjFlow_get_bar (sortBars df.rows) none k hk'
  have hcode : ((sortBars df.rows).get ⟨i, hi'⟩).code
      = ((sortBars df.rows).get ⟨i + 1, hj'⟩).code := by
    apply sorted_code_between (sortBars_sorted df.rows) k i (i + 1) hk' hi' hj'
      (Nat.le_of_lt_succ hkj) (Nat.le_succ i)
    rw [← hrkbar]
    rw [hrjv, mkFlowRow_bar] at hkcode
    exact hkcode
  rw [e]
  refine ⟨i, (adjFlow none (sortBars df.rows)).get
      ⟨i, by rw [adjFlow_length]; exact hi'⟩, rfl, ?_, ?_, ?_⟩
  · exact List.getElem?_eq_getElem (by rw [adjFlow_length]; exact hi')
  · rw [adjFlow_get_bar (sortBars df.rows) none i hi', hrjv, mkFlowRow_bar]
    exact hcode
  · rw [adjFlow_get_tp (sortBars df.rows) none i hi']
    have hvb : ((sortBars df.rows).get ⟨i + 1, hj'⟩).v = some vol := by
      rw [hrjv, mkFlowRow_bar] at hv; exact hv
    rw [hrjv, prevInGroup, if_pos hcode, mkFlowRow_some_flow, hvb]
    rfl

theorem mem_addFlowColsAux :
    ∀ (rest seen : List Bar) (r : FlowRow), r ∈ addFlowColsAux seen rest →
      ∃ p, r = mkFlowRow p r.bar := by
  intro rest
  induction rest with
  | nil => intro seen r hr; simp [addFlowColsAux] at hr
  | cons b t ih =>
    intro seen r hr
    rcases List.mem_cons.mp hr with rfl | hr
    · exact ⟨lastSameCode b.code seen, rfl⟩
    · exact ih (seen ++ [b]) r hr

theorem omul_none_right (a : Option ℚ) : omul a none = none := by
  cases a <;> rfl

/-- Inserting a NaN or zero value anywhere in a series changes neither
its skipna sum nor its positive/negative day counts. -/
theorem agg_ignores_zero (x : Option ℚ) (hx : x = none ∨ x = some 0)
    (l₁ l₂ : List (Option ℚ)) :
    sumO (l₁ ++ x :: l₂) = sumO (l₁ ++ l₂)
      ∧ posDays (l₁ ++ x :: l₂) = posDays (l₁ ++ l₂)
      ∧ negDays (l₁ ++ x :: l₂) = negDays (l₁ ++ l₂) := by
  rcases hx with rfl | rfl <;>
    refine ⟨?_, ?_, ?_⟩ <;>
      simp [sumO, definedVals, posDays, negDays, List.filterMap_append,
        List.countP_append, List.countP_cons, lt_irrefl]

/-- C8: a bar with zero or missing volume gets a flow value of zero or
NaN irrespective of the price movement, and such a value adds nothing
to a skipna sum or to the positive/negative day counts of any
aggregate. -/
theorem claim_C8 (df : DataFrame) (r : FlowRow) (hr : r ∈ calculate_money_flow df)
    (hv : r.bar.v = none ∨ r.bar.v = some 0) :
    (r.money_flow_volume = none ∨ r.money_flow_volume = some 0)
      ∧ ∀ l₁ l₂ : List (Option ℚ),
          sumO (l₁ ++ r.money_flow_volume :: l₂) = sumO (l₁ ++ l₂)
            ∧ posDays (l₁ ++ r.money_flow_volume :: l₂) = posDays (l₁ ++ l₂)
            ∧ negDays (l₁ ++ r.money_flow_volume :: l₂) = negDays (l₁ ++ l₂) := by
  have hmk : ∃ p, r = mkFlowRow p r.bar := by
    unfold calculate_money_flow at hr
    split at hr
    · simp at hr
    · exact mem_addFlowColsAux _ _ r hr
  obtain ⟨p, hp⟩ := hmk
  have hflow : r.money_flow_volume = none ∨ r.money_flow_volume = some 0 := by
    rcases hv with hv | hv
    · rw [hp]
      show (mkFlowRow p r.bar).money_flow_volume = none ∨ _
      left
      simp only [mkFlowRow]
      rw [hv, omul_none_right]
    · rcases p with _ | a
      · left; rw [hp]; rfl
      · right
        rw [hp]
        show omul (omul (some (sign (typical_price r.bar - typical_price a)))
          (some (typical_price r.bar))) r.bar.v = some 0
        rw [hv]
        show some (sign (typical_price r.bar - typical_price a) * typical_price r.bar * 0)
          = some 0
        rw [mul_zero]
  exact ⟨hflow, fun l₁ l₂ => agg_ignores_zero r.money_flow_volume hflow l₁ l₂⟩

/-- C9: the flow-strength column is cumulative net flow divided by the
group's market cap times 100 whenever the cap is a known positive
number, and is NaN when the cap is zero (replaced by NaN before the
division) or missing from the cap table. -/
theorem claim_C9 (caps : String → Option ℚ) (cutoff : ℤ) (df : DataFrame)
    (p : SummaryRow × Option ℚ) (hp : p ∈ df_summary_strength caps cutoff df) :
    (∀ m : ℚ, caps p.1.sector = some m → 0 < m → p.2 = some (p.1.netFlow / m * 100))
      ∧ ((caps p.1.sector = some 0 ∨ caps p.1.sector = none) → p.2 = none) := by
  obtain ⟨r, _, rfl⟩ := List.mem_map.mp hp
  constructor
  · intro m hm hmpos
    show strengthOf caps r = some (r.netFlow / m * 100)
    unfold strengthOf replaceZeroCap
    rw [hm, if_neg (by simp [ne_of_gt hmpos]), Option.map_some']
  · intro hm
    show strengthOf caps r = none
    unfold strengthOf replaceZeroCap
    rcases hm with hm | hm <;> rw [hm] <;> simp

/-- C10: on an empty frame or a frame missing the `h` column,
`calculate_money_flow` returns an empty frame instead of raising, and
in all cases the function leaves its input frame unmodified: the
statement-by-statement run returns the caller's frame unchanged while
computing the same result. -/
theorem claim_C10 (df : DataFrame) :
    (calculate_money_flow_run df).1 = df
      ∧ ((df.rows = [] ∨ df.hasH = false) → calculate_money_flow df = [])
      ∧ (calculate_money_flow_run df).2 = calculate_money_flow df := by
  refine ⟨?_, ?_, ?_⟩
  · unfold calculate_money_flow_run
    split <;> rfl
  · intro h
    unfold calculate_money_flow
    rcases h with h | h
    · rw [if_pos (Or.inl (by simp [h]))]
    · rw [if_pos (Or.inr h)]
  · unfold calculate_money_flow_run calculate_money_flow
    split <;> rfl

/-- C4: for each trailing window, the summary has exactly one row per
sector occurring among the windowed rows, and that row carries the
skipna sum, mean, squared standard deviation, positive-day count and
negative-day count of the sector's `money_flow_volume` series. -/
theorem claim_C4 (cutoff : ℤ) (df : DataFrame) :
    (∀ s : String,
        (∃ r ∈ df_filtered cutoff (calculate_money_flow df), r.bar.sector = s)
          ↔ ∃ row ∈ df_summary cutoff df, row.sector = s)
      ∧ ((df_summary cutoff df).map fun row => row.sector).Nodup
      ∧ ∀ row ∈ df_summary cutoff df,
          row.netFlow
              = sumO (sectorFlows row.sector (df_filtered cutoff (calculate_money_flow df)))
            ∧ row.meanFlow
              = meanO (sectorFlows row.sector (df_filtered cutoff (calculate_money_flow df)))
            ∧ row.varFlow
              = varO (sectorFlows row.sector (df_filtered cutoff (calculate_money_flow df)))
            ∧ row.posCount
              = posDays (sectorFlows row.sector (df_filtered cutoff (calculate_money_flow df)))
            ∧ row.negCount
              = negDays (sectorFlows row.sector (df_filtered cutoff (calculate_money_flow df))) := by
  have hkeys : ∀ s : String,
      s ∈ sectorsOf (df_filtered cutoff (calculate_money_flow df))
        ↔ ∃ r ∈ df_filtered cutoff (calculate_money_flow df), r.bar.sector = s := by
    intro s
    unfold sectorsOf
    rw [(List.perm_insertionSort _ _).mem_iff, List.mem_dedup, List.mem_map]
  refine ⟨?_, ?_, ?_⟩
  · intro s
    rw [← hkeys s]
    unfold df_summary
    simp only [List.mem_map]
    constructor
    · intro hs
      exact ⟨summaryRowFor (df_filtered cutoff (calculate_money_flow df)) s, ⟨s, hs, rfl⟩, rfl⟩
    · rintro ⟨row, ⟨k, hk, rfl⟩, hsec⟩
      exact hsec ▸ hk
  · unfold df_summary
    rw [List.map_map]
    show (List.map (fun k => k) _).Nodup
    rw [List.map_id']
    exact (List.perm_insertionSort _ _).symm.nodup (List.nodup_dedup _)
  · intro row hrow
    unfold df_summary at hrow
    obtain ⟨k, _, rfl⟩ := List.mem_map.mp hrow
    exact ⟨rfl, rfl, rfl, rfl, rfl⟩

/-- A sorted frame whose (code, date) keys are pairwise distinct is
sorted for the strict key order. -/
theorem sorted_strict {l : List Bar} (hs : List.Sorted barLE l)
    (hnd : (l.map barKey).Nodup) : List.Sorted barLT l := by
  have hp : l.Pairwise fun a b => barKey a ≠ barKey b := List.pairwise_map.mp hnd
  refine (List.Pairwise.and hs hp).imp ?_
  rintro a b ⟨hab, hne⟩
  rcases hab with h | ⟨hc, hd⟩
  · exact Or.inl h
  · refine Or.inr ⟨hc, lt_of_le_of_ne hd fun hdd => hne ?_⟩
    simp [barKey, hc, hdd]

/-- Sorting is determined by the multiset of rows when the (code, date)
keys are pairwise distinct. -/
theorem sortBars_eq_of_perm {l₁ l₂ : List Bar} (hperm : List.Perm l₁ l₂)
    (hnd : (l₂.map barKey).Nodup) : sortBars l₁ = sortBars l₂ := by
  have hnd₁ : ((sortBars l₁).map barKey).Nodup :=
    (((sortBars_perm l₁).trans hperm).map barKey).symm.nodup hnd
  have hnd₂ : ((sortBars l₂).map barKey).Nodup :=
    ((sortBars_perm l₂).map barKey).symm.nodup hnd
  exact List.eq_of_perm_of_sorted
    ((sortBars_perm l₁).trans (hperm.trans (sortBars_perm l₂).symm))
    (sorted_strict (sortBars_sorted l₁) hnd₁)
    (sorted_strict (sortBars_sorted l₂) hnd₂)

/-- C5: permuting the input rows (with one bar per (instrument, date)
key) leaves the output of `calculate_money_flow` unchanged row for row,
hence every downstream aggregate as well. -/
theorem claim_C5 (df dfQ : DataFrame) (hH : dfQ.hasH = df.hasH)
    (hperm : List.Perm dfQ.rows df.rows) (hnd : (df.rows.map barKey).Nodup) :
    calculate_money_flow dfQ = calculate_money_flow df := by
  have hE : dfQ.rows.isEmpty = df.rows.isEmpty := by
    have hlen := hperm.length_eq
    rcases h₁ : dfQ.rows with _ | ⟨a, t⟩ <;> rcases h₂ : df.rows with _ | ⟨b, u⟩ <;>
      simp_all
  unfold calculate_money_flow
  rw [hE, hH, sortBars_eq_of_perm hperm hnd]

/-- Last entry of a skipna running sum whose final cell is defined: the
running total over the whole list. -/
theorem cumsumAux_getLast :
    ∀ (l : List (Option ℚ)) (acc x : ℚ), l.getLast? = some (some x) →
      (cumsumAux acc l).getLast? = some (some (acc + (definedVals l).sum)) := by
  intro l
  induction l with
  | nil => intro acc x h; simp at h
  | cons a t ih =>
    intro acc x h
    rcases t with _ | ⟨b, t₂⟩
    · have ha : a = some x := by simpa using h
      subst ha
      simp [cumsumAux, definedVals]
    · have hlast : (b :: t₂).getLast? = some (some x) := by
        rw [← h, List.getLast?_cons_cons]
      rcases a with _ | y
      · have hrec := ih acc x hlast
        show (none :: cumsumAux acc (b :: t₂)).getLast? = _
        obtain ⟨z, zs, hz⟩ : ∃ z zs, cumsumAux acc (b :: t₂) = z :: zs := by
          rcases b with _ | w
          · exact ⟨none, _, rfl⟩
          · exact ⟨some (acc + w), _, rfl⟩
        rw [hz, List.getLast?_cons_cons, ← hz, hrec]
        simp [definedVals]
      · have hrec := ih (acc + y) x hlast
        show (some (acc + y) :: cumsumAux (acc + y) (b :: t₂)).getLast? = _
        obtain ⟨z, zs, hz⟩ : ∃ z zs, cumsumAux (acc + y) (b :: t₂) = z :: zs := by
          rcases b with _ | w
          · exact ⟨none, _, rfl⟩
          · exact ⟨some (acc + y + w), _, rfl⟩
        rw [hz, List.getLast?_cons_cons, ← hz, hrec]
        simp [definedVals, add_assoc]

/-- C6 (amended): when the group's last windowed flow value is defined,
the last entry of the per-group running cumulative flow equals the
group's reported net-flow sum; the summary row of the group reports
exactly that sum. -/
theorem claim_C6 (cutoff : ℤ) (df : DataFrame) (s : String) (v : ℚ)
    (hlast : (sectorFlows s (df_filtered cutoff (calculate_money_flow df))).getLast?
      = some (some v)) :
    (cumulative_flow cutoff df s).getLast?
        = some (some (sumO (sectorFlows s (df_filtered cutoff (calculate_money_flow df)))))
      ∧ ∀ row ∈ df_summary cutoff df, row.sector = s →
          row.netFlow = sumO (sectorFlows s (df_filtered cutoff (calculate_money_flow df))) := by
  constructor
  · unfold cumulative_flow cumsumO
    rw [cumsumAux_getLast _ 0 v hlast, zero_add]
    rfl
  · intro row hrow hsec
    unfold df_summary at hrow
    obtain ⟨k, _, rfl⟩ := List.mem_map.mp hrow
    have hks : k = s := hsec
    rw [← hks]
    rfl

/-- A code occurring on at most one row never finds a previous bar of
its own code, so its flow is NaN. -/
theorem single_code_flow_none :
    ∀ (rest seen : List Bar) (x : String), (∀ b ∈ seen, b.code ≠ x) →
      rest.countP (fun b => decide (b.code = x)) ≤ 1 →
      ∀ r ∈ addFlowColsAux seen rest, r.bar.code = x → r.money_flow_volume = none := by
  intro rest
  induction rest with
  | nil => intro seen x _ _ r hr; simp [addFlowColsAux] at hr
  | cons b t ih =>
    intro seen x hseen hcount r hr hrx
    rcases List.mem_cons.mp hr with rfl | hr
    · have hb : b.code = x := hrx
      show (mkFlowRow (lastSameCode b.code seen) b).money_flow_volume = none
      rw [lastSameCode_eq_none b.code seen
        (fun y hy hyc => hseen y hy (by rw [hyc, hb]))]
      exact mkFlowRow_none_flow b
    · by_cases hbx : b.code = x
      · exfalso
        have ht : t.countP (fun b => decide (b.code = x)) = 0 := by
          have hcount' : t.countP (fun b => decide (b.code = x)) + 1 ≤ 1 := by
            rw [List.countP_cons] at hcount
            simpa [hbx] using hcount
          omega
        have hmem : r.bar ∈ t := by
          have hbars := addFlowColsAux_bars t (seen ++ [b])
          rw [← hbars]
          exact List.mem_map_of_mem _ hr
        have h0 := List.countP_eq_zero.mp ht r.bar hmem
        simp [hrx] at h0
      · refine ih (seen ++ [b]) x ?_ ?_ r hr hrx
        · intro y hy
          rcases List.mem_append.mp hy with hy | hy
          · exact hseen y hy
          · rw [List.mem_singleton.mp hy]; exact hbx
        · have : t.countP (fun b => decide (b.code = x))
              ≤ (b :: t).countP (fun b => decide (b.code = x)) := by
            rw [List.countP_cons]; omega
          omega

theorem sectorFlows_cons (s : String) (r : FlowRow) (L : List FlowRow) :
    sectorFlows s (r :: L)
      = if r.bar.sector = s then r.money_flow_volume :: sectorFlows s L
        else sectorFlows s L := by
  by_cases h : r.bar.sector = s <;> simp [sectorFlows, List.filter_cons, h]

theorem definedVals_none_cons (l : List (Option ℚ)) :
    definedVals (none :: l) = definedVals l := by
  simp [definedVals]

theorem definedVals_some_cons (y : ℚ) (l : List (Option ℚ)) :
    definedVals (some y :: l) = y :: definedVals l := by
  simp [definedVals]

theorem posDays_none_cons (l : List (Option ℚ)) : posDays (none :: l) = posDays l := by
  simp [posDays, List.countP_cons]

theorem negDays_none_cons (l : List (Option ℚ)) : negDays (none :: l) = negDays l := by
  simp [negDays, List.countP_cons]

theorem posDays_some_cons (y : ℚ) (l : List (Option ℚ)) :
    posDays (some y :: l) = posDays l + if 0 < y then 1 else 0 := by
  simp [posDays, List.countP_cons]

theorem negDays_some_cons (y : ℚ) (l : List (Option ℚ)) :
    negDays (some y :: l) = negDays l + if y < 0 then 1 else 0 := by
  simp [negDays, List.countP_cons]

/-- Dropping the rows of a code all of whose flow values are NaN leaves
the defined values and the day counts of every sector's series
unchanged. -/
theorem stats_drop_code (x s : String) :
    ∀ L : List FlowRow, (∀ r ∈ L, r.bar.code = x → r.money_flow_volume = none) →
      definedVals (sectorFlows s (L.filter fun r => decide (¬ r.bar.code = x)))
          = definedVals (sectorFlows s L)
        ∧ posDays (sectorFlows s (L.filter fun r => decide (¬ r.bar.code = x)))
          = posDays (sectorFlows s L)
        ∧ negDays (sectorFlows s (L.filter fun r => decide (¬ r.bar.code = x)))
          = negDays (sectorFlows s L) := by
  intro L
  induction L with
  | nil => intro _; exact ⟨rfl, rfl, rfl⟩
  | cons r t ih =>
    intro h
    obtain ⟨ih1, ih2, ih3⟩ := ih fun y hy => h y (List.mem_cons_of_mem r hy)
    rw [List.filter_cons]
    by_cases hrx : r.bar.code = x
    · have hflow := h r (List.mem_cons_self r t) hrx
      rw [if_neg (by simp [hrx]), sectorFlows_cons]
      by_cases hsec : r.bar.sector = s
      · rw [if_pos hsec, hflow, definedVals_none_cons, posDays_none_cons, negDays_none_cons]
        exact ⟨ih1, ih2, ih3⟩
      · rw [if_neg hsec]
        exact ⟨ih1, ih2, ih3⟩
    · rw [if_pos (by simp [hrx]), sectorFlows_cons, sectorFlows_cons]
      by_cases hsec : r.bar.sector = s
      · rw [if_pos hsec, if_pos hsec]
        rcases hflow : r.money_flow_volume with _ | y
        · rw [definedVals_none_cons, definedVals_none_cons, posDays_none_cons,
            posDays_none_cons, negDays_none_cons, negDays_none_cons]
          exact ⟨ih1, ih2, ih3⟩
        · rw [definedVals_some_cons, definedVals_some_cons, posDays_some_cons,
            posDays_some_cons, negDays_some_cons, negDays_some_cons, ih1, ih2, ih3]
          exact ⟨rfl, rfl, rfl⟩
      · rw [if_neg hsec, if_neg hsec]
        exact ⟨ih1, ih2, ih3⟩

theorem sumO_congr {l₁ l₂ : List (Option ℚ)} (h : definedVals l₁ = definedVals l₂) :
    sumO l₁ = sumO l₂ := by
  unfold sumO; rw [h]

theorem meanO_congr {l₁ l₂ : List (Option ℚ)} (h : definedVals l₁ = definedVals l₂) :
    meanO l₁ = meanO l₂ := by
  unfold meanO; rw [h]

theorem varO_congr {l₁ l₂ : List (Option ℚ)} (h : definedVals l₁ = definedVals l₂) :
    varO l₁ = varO l₂ := by
  unfold varO; rw [h]

/-- C3 (amended): the single bar of an instrument with exactly one
observation gets a NaN (not zero) flow, and dropping that instrument
changes no aggregate of any sector: sum, mean, squared standard
deviation and both day counts are unchanged. -/
theorem claim_C3 (df : DataFrame) (x : String)
    (hx : df.rows.countP (fun b => decide (b.code = x)) = 1) :
    (∀ r ∈ calculate_money_flow df, r.bar.code = x → r.money_flow_volume = none)
      ∧ ∀ (cutoff : ℤ) (s : String),
          sumO (sectorFlows s ((df_filtered cutoff (calculate_money_flow df)).filter
              fun r => decide (¬ r.bar.code = x)))
            = sumO (sectorFlows s (df_filtered cutoff (calculate_money_flow df)))
          ∧ meanO (sectorFlows s ((df_filtered cutoff (calculate_money_flow df)).filter
              fun r => decide (¬ r.bar.code = x)))
            = meanO (sectorFlows s (df_filtered cutoff (calculate_money_flow df)))
          ∧ varO (sectorFlows s ((df_filtered cutoff (calculate_money_flow df)).filter
              fun r => decide (¬ r.bar.code = x)))
            = varO (sectorFlows s (df_filtered cutoff (calculate_money_flow df)))
          ∧ posDays (sectorFlows s ((df_filtered cutoff (calculate_money_flow df)).filter
              fun r => decide (¬ r.bar.code = x)))
            = posDays (sectorFlows s (df_filtered cutoff (calculate_money_flow df)))
          ∧ negDays (sectorFlows s ((df_filtered cutoff (calculate_money_flow df)).filter
              fun r => decide (¬ r.bar.code = x)))
            = negDays (sectorFlows s (df_filtered cutoff (calculate_money_flow df))) := by
  have hmain : ∀ r ∈ calculate_money_flow df, r.bar.code = x →
      r.money_flow_volume = none := by
    intro r hr hrx
    unfold calculate_money_flow at hr
    split at hr
    · simp at hr
    · refine single_code_flow_none (sortBars df.rows) [] x (by simp) ?_ r hr hrx
      rw [(sortBars_perm df.rows).countP_eq, hx]
  refine ⟨hmain, ?_⟩
  intro cutoff s
  have hfl : ∀ r ∈ df_filtered cutoff (calculate_money_flow df), r.bar.code = x →
      r.money_flow_volume = none :=
    fun r hr => hmain r (List.mem_of_mem_filter hr)
  obtain ⟨h1, h2, h3⟩ := stats_drop_code x s (df_filtered cutoff (calculate_money_flow df)) hfl
  exact ⟨sumO_congr h1, meanO_congr h1, varO_congr h1, h2, h3⟩

/-- C7 (amended): for an instrument with one bar per (code, date) key
whose typical prices are strictly increasing in the date and
non-negative, and whose volumes are all positive, every defined flow
value of that instrument is non-negative (the first bar's flow is NaN,
which no aggregate counts). -/
theorem claim_C7 (df : DataFrame) (x : String)
    (hnd : (df.rows.map barKey).Nodup)
    (hmono : ∀ a ∈ df.rows, ∀ b ∈ df.rows, a.code = x → b.code = x →
      a.date < b.date → typical_price a < typical_price b)
    (htp : ∀ b ∈ df.rows, b.code = x → 0 ≤ typical_price b)
    (hvol : ∀ b ∈ df.rows, b.code = x → ∀ vv, b.v = some vv → 0 < vv) :
    ∀ r ∈ calculate_money_flow df, r.bar.code = x →
      ∀ y, r.money_flow_volume = some y → 0 ≤ y := by
  intro r hr hrx y hy
  unfold calculate_money_flow at hr
  split at hr
  · simp at hr
  · rw [addFlowColsAux_eq_adjFlow (sortBars df.rows) []
      (by simpa using sortBars_sorted df.rows)] at hr
    obtain ⟨n, hget⟩ := List.mem_iff_get.mp hr
    obtain ⟨nv, hn⟩ := n
    have hn' : nv < (sortBars df.rows).length := by
      rw [adjFlow_length] at hn; exact hn
    rcases nv with _ | j
    · have hr0 : r = mkFlowRow (prevInGroup none ((sortBars df.rows).get ⟨0, hn'⟩))
          ((sortBars df.rows).get ⟨0, hn'⟩) := by
        rw [← hget]
        exact (adjFlow_get_zero (sortBars df.rows) none hn').symm ▸ rfl
      rw [hr0] at hy
      simp [prevInGroup, mkFlowRow_none_flow] at hy
    · have hj' : j < (sortBars df.rows).length := Nat.lt_of_succ_lt hn'
      have hrv : r = mkFlowRow
          (prevInGroup (some ((sortBars df.rows).get ⟨j, hj'⟩))
            ((sortBars df.rows).get ⟨j + 1, hn'⟩))
          ((sortBars df.rows).get ⟨j + 1, hn'⟩) := by
        rw [← hget]
        exact adjFlow_get_succ (sortBars df.rows) none j hn'
      by_cases hc : ((sortBars df.rows).get ⟨j, hj'⟩).code
          = ((sortBars df.rows).get ⟨j + 1, hn'⟩).code
      · have ha : (sortBars df.rows).get ⟨j, hj'⟩ ∈ df.rows :=
          (sortBars_perm df.rows).subset (List.get_mem _ _ _)
        have hb : (sortBars df.rows).get ⟨j + 1, hn'⟩ ∈ df.rows :=
          (sortBars_perm df.rows).subset (List.get_mem _ _ _)
        have hbx : ((sortBars df.rows).get ⟨j + 1, hn'⟩).code = x := by
          rw [hrv, mkFlowRow_bar] at hrx; exact hrx
        have hax : ((sortBars df.rows).get ⟨j, hj'⟩).code = x := by rw [hc]; exact hbx
        have hle : barLE ((sortBars df.rows).get ⟨j, hj'⟩)
            ((sortBars df.rows).get ⟨j + 1, hn'⟩) :=
          (sortBars_sorted df.rows).rel_get_of_lt (by exact Nat.lt_succ_self j)
        have hkeyne : barKey ((sortBars df.rows).get ⟨j, hj'⟩)
            ≠ barKey ((sortBars df.rows).get ⟨j + 1, hn'⟩) := by
          have hndS : ((sortBars df.rows).map barKey).Nodup :=
            ((sortBars_perm df.rows).map barKey).symm.nodup hnd
          have hpw := List.pairwise_map.mp hndS
          exact List.pairwise_iff_get.mp hpw ⟨j, hj'⟩ ⟨j + 1, hn'⟩
            (by exact Nat.lt_succ_self j)
        have hdate : ((sortBars df.rows).get ⟨j, hj'⟩).date
            < ((sortBars df.rows).get ⟨j + 1, hn'⟩).date := by
          rcases hle with hlt | ⟨_, hd⟩
          · exact absurd hlt (by rw [hc]; exact lt_irrefl _)
          · refine lt_of_le_of_ne hd fun hdd => hkeyne ?_
            unfold barKey
            rw [hc, hdd]
        have htpmono := hmono _ ha _ hb hax hbx hdate
        have hd : 0 < typical_price ((sortBars df.rows).get ⟨j + 1, hn'⟩)
            - typical_price ((sortBars df.rows).get ⟨j, hj'⟩) := by linarith
        have hsign : sign (typical_price ((sortBars df.rows).get ⟨j + 1, hn'⟩)
            - typical_price ((sortBars df.rows).get ⟨j, hj'⟩)) = 1 := by
          unfold sign
          rw [if_neg (not_lt.mpr (le_of_lt hd)), if_pos hd]
        rw [hrv, prevInGroup, if_pos hc, mkFlowRow_some_flow] at hy
        obtain ⟨vv, hvv, hyv⟩ := Option.map_eq_some'.mp hy
        have hvvpos := hvol _ hb hbx vv hvv
        have htpb := htp _ hb hbx
        rw [← hyv, hsign, one_mul]
        exact mul_nonneg htpb (le_of_lt hvvpos)
      · rw [hrv, prevInGroup, if_neg hc, mkFlowRow_none_flow] at hy
        exact absurd hy Option.noConfusion

/-! Evaluation of the pipeline on the concrete frames. -/

theorem eval_dfA : calculate_money_flow dfA = [rA0, rA1] := by
  norm_num +decide [calculate_money_flow, sortBars, List.insertionSort, List.orderedInsert,
    addFlowColsAux, lastSameCode, mkFlowRow, omul, sign, typical_price, dfA, bA0, bA1,
    barLE, rA0, rA1]

theorem eval_dfB : calculate_money_flow dfB = [rA0, rB0] := by
  norm_num +decide [calculate_money_flow, sortBars, List.insertionSort, List.orderedInsert,
    addFlowColsAux, lastSameCode, mkFlowRow, omul, sign, typical_price, dfB, bA0, bB0,
    barLE, rA0, rB0]

theorem eval_dfS : calculate_money_flow dfS = [rS0] := by
  norm_num +decide [calculate_money_flow, sortBars, List.insertionSort, List.orderedInsert,
    addFlowColsAux, lastSameCode, mkFlowRow, omul, sign, typical_price, dfS, bS,
    barLE, rS0]

theorem eval_dfN : calculate_money_flow dfN = [rN0, rN1] := by
  norm_num +decide [calculate_money_flow, sortBars, List.insertionSort, List.orderedInsert,
    addFlowColsAux, lastSameCode, mkFlowRow, omul, sign, typical_price, dfN, bN0, bN1,
    barLE, rN0, rN1]

theorem eval_dfZ : calculate_money_flow dfZ = [rZ0, rZ1] := by
  norm_num +decide [calculate_money_flow, sortBars, List.insertionSort, List.orderedInsert,
    addFlowColsAux, lastSameCode, mkFlowRow, omul, sign, typical_price, dfZ, bZ0, bZ1,
    barLE, rZ0, rZ1]

theorem eval_dfA_sector :
    sectorFlows "T" (df_filtered 0 (calculate_money_flow dfA)) = [none, some 15] := by
  rw [eval_dfA]; rfl

theorem eval_dfS_sector :
    sectorFlows "T" (df_filtered 0 (calculate_money_flow dfS)) = [none] := by
  rw [eval_dfS]; rfl

theorem eval_dfA_summary : df_summary 0 dfA = [rT] := by
  unfold df_summary
  rw [eval_dfA]
  norm_num +decide [sectorsOf, List.insertionSort, List.orderedInsert, df_filtered,
    inWindow, summaryRowFor, sectorFlows, sumO, meanO, varO, posDays, negDays,
    definedVals, rA0, rA1, bA0, bA1, rT, List.countP_cons, List.filterMap, List.sum_cons]

theorem eval_dfA_strength :
    df_summary_strength capsT 0 dfA = [(rT, some (15 / 2))] := by
  unfold df_summary_strength
  rw [eval_dfA_summary]
  norm_num [strengthOf, replaceZeroCap, capsT, rT]

/-! Witnesses and counterexamples on the concrete frames. -/

/-- Witness for C1: in `calculate_money_flow dfA`, row 1 (instrument
`"A"`, day 2) is differenced against row 0 and carries flow
`sign(3-2) * 3 * 5 = 15`. -/
theorem claim_C1_witness :
    ∃ i ri, i + 1 = 1 ∧ (calculate_money_flow dfA)[i]? = some ri
      ∧ ri.bar.code = rA1.bar.code
      ∧ rA1.money_flow_volume
          = some (sign (rA1.typical_price - ri.typical_price) * rA1.typical_price * 5) :=
  claim_C1 dfA rfl rfl 1 rA1 (by rw [eval_dfA]; rfl)
    ⟨0, rA0, Nat.zero_lt_one, by rw [eval_dfA]; rfl, rfl⟩ 5 rfl

/-- Witness for C2: in `calculate_money_flow dfB`, the consecutive rows
belong to different instruments and the second row's `price_change` is
NaN. -/
theorem claim_C2_witness :
    (∀ d : ℚ, rB0.price_change = some d →
        rA0.bar.code = rB0.bar.code ∧ d = rB0.typical_price - rA0.typical_price)
      ∧ (rA0.bar.code ≠ rB0.bar.code → rB0.price_change = none) :=
  claim_C2 dfB rfl rfl 0 1 rfl rA0 rB0 (by rw [eval_dfB]; rfl) (by rw [eval_dfB]; rfl)

/-- Counterexample for C3 as stated: `dfS` holds exactly one bar of
instrument `"A"`, and that bar's flow is NaN, not zero. -/
theorem claim_C3_counterexample :
    dfS.rows.countP (fun b => decide (b.code = "A")) = 1
      ∧ ¬ ∀ r ∈ calculate_money_flow dfS, r.bar.code = "A" →
          r.money_flow_volume = some 0 := by
  refine ⟨by decide, fun hall => ?_⟩
  have h := hall rS0 (by rw [eval_dfS]; exact List.mem_singleton.mpr rfl) rfl
  exact Option.noConfusion h

/-- Witness for the amended C3 at `dfS` and instrument `"A"`. -/
theorem claim_C3_witness :
    (∀ r ∈ calculate_money_flow dfS, r.bar.code = "A" → r.money_flow_volume = none)
      ∧ ∀ (cutoff : ℤ) (s : String),
          sumO (sectorFlows s ((df_filtered cutoff (calculate_money_flow dfS)).filter
              fun r => decide (¬ r.bar.code = "A")))
            = sumO (sectorFlows s (df_filtered cutoff (calculate_money_flow dfS)))
          ∧ meanO (sectorFlows s ((df_filtered cutoff (calculate_money_flow dfS)).filter
              fun r => decide (¬ r.bar.code = "A")))
            = meanO (sectorFlows s (df_filtered cutoff (calculate_money_flow dfS)))
          ∧ varO (sectorFlows s ((df_filtered cutoff (calculate_money_flow dfS)).filter
              fun r => decide (¬ r.bar.code = "A")))
            = varO (sectorFlows s (df_filtered cutoff (calculate_money_flow dfS)))
          ∧ posDays (sectorFlows s ((df_filtered cutoff (calculate_money_flow dfS)).filter
              fun r => decide (¬ r.bar.code = "A")))
            = posDays (sectorFlows s (df_filtered cutoff (calculate_money_flow dfS)))
          ∧ negDays (sectorFlows s ((df_filtered cutoff (calculate_money_flow dfS)).filter
              fun r => decide (¬ r.bar.code = "A")))
            = negDays (sectorFlows s (df_filtered cutoff (calculate_money_flow dfS))) :=
  claim_C3 dfS "A" (by decide)

/-- Witness for C4 at window cutoff 0 over `dfA`. -/
theorem claim_C4_witness :
    (∀ s : String,
        (∃ r ∈ df_filtered 0 (calculate_money_flow dfA), r.bar.sector = s)
          ↔ ∃ row ∈ df_summary 0 dfA, row.sector = s)
      ∧ ((df_summary 0 dfA).map fun row => row.sector).Nodup
      ∧ ∀ row ∈ df_summary 0 dfA,
          row.netFlow = sumO (sectorFlows row.sector (df_filtered 0 (calculate_money_flow dfA)))
            ∧ row.meanFlow
              = meanO (sectorFlows row.sector (df_filtered 0 (calculate_money_flow dfA)))
            ∧ row.varFlow
              = varO (sectorFlows row.sector (df_filtered 0 (calculate_money_flow dfA)))
            ∧ row.posCount
              = posDays (sectorFlows row.sector (df_filtered 0 (calculate_money_flow dfA)))
            ∧ row.negCount
              = negDays (sectorFlows row.sector (df_filtered 0 (calculate_money_flow dfA))) :=
  claim_C4 0 dfA

/-- Witness for C5: permuting the two rows of `dfA` leaves the output
unchanged. -/
theorem claim_C5_witness : calculate_money_flow dfA2 = calculate_money_flow dfA :=
  claim_C5 dfA dfA2 rfl (List.Perm.swap bA1 bA0 []) (by decide)

/-- Counterexample for C6 as stated: over `dfS` the single windowed
flow is NaN, so the last running cumulative value is NaN while the
net-flow sum is 0. -/
theorem claim_C6_counterexample :
    ¬ (cumulative_flow 0 dfS "T").getLast?
        = some (some (sumO (sectorFlows "T" (df_filtered 0 (calculate_money_flow dfS))))) := by
  intro h
  unfold cumulative_flow cumsumO at h
  rw [eval_dfS_sector] at h
  simp [cumsumAux, sumO, definedVals] at h

/-- Witness for the amended C6 at `dfA`, sector `"T"`, cutoff 0: the
last windowed flow is defined (15). -/
theorem claim_C6_witness :
    (cumulative_flow 0 dfA "T").getLast?
        = some (some (sumO (sectorFlows "T" (df_filtered 0 (calculate_money_flow dfA)))))
      ∧ ∀ row ∈ df_summary 0 dfA, row.sector = "T" →
          row.netFlow = sumO (sectorFlows "T" (df_filtered 0 (calculate_money_flow dfA))) :=
  claim_C6 0 dfA "T" 15 (by rw [eval_dfA_sector]; rfl)

/-- Counterexample for C7 as stated: over `dfN` the typical prices are
strictly increasing and the volumes positive, yet the second flow is
-6 < 0, because the typical prices are negative. -/
theorem claim_C7_counterexample :
    (∀ a ∈ dfN.rows, ∀ b ∈ dfN.rows, a.date < b.date →
        typical_price a < typical_price b)
      ∧ (∀ b ∈ dfN.rows, ∀ vv, b.v = some vv → 0 < vv)
      ∧ ¬ ∀ r ∈ calculate_money_flow dfN, ∀ y, r.money_flow_volume = some y → 0 ≤ y := by
  refine ⟨?_, ?_, fun hall => ?_⟩
  · intro a ha b hb hd
    simp [dfN] at ha hb
    rcases ha with rfl | rfl <;> rcases hb with rfl | rfl <;>
      norm_num [typical_price, bN0, bN1] at hd ⊢
  · intro b hb vv hvv
    simp [dfN] at hb
    rcases hb with rfl | rfl <;> simp [bN0, bN1] at hvv <;> subst hvv <;> norm_num
  · have h := hall rN1 (by rw [eval_dfN]; simp) (-6) rfl
    norm_num at h

/-- Witness for the amended C7 at `dfA`, instrument `"A"` (non-negative
increasing prices, positive volumes), applied to the row `rA1` whose
flow is 15. -/
theorem claim_C7_witness : (0 : ℚ) ≤ 15 :=
  claim_C7 dfA "A" (by decide)
    (by
      intro a ha b hb hax hbx hd
      simp [dfA] at ha hb
      rcases ha with rfl | rfl <;> rcases hb with rfl | rfl <;>
        norm_num [typical_price, bA0, bA1] at hd ⊢)
    (by
      intro b hb hbx
      simp [dfA] at hb
      rcases hb with rfl | rfl <;> norm_num [typical_price, bA0, bA1])
    (by
      intro b hb hbx vv hvv
      simp [dfA] at hb
      rcases hb with rfl | rfl <;> simp [bA0, bA1] at hvv <;> subst hvv <;> norm_num)
    rA1 (by rw [eval_dfA]; simp) rfl 15 rfl

/-- Witness for C8: the zero-volume rising-price bar of `dfZ` has flow
zero, which no sum or day count registers. -/
theorem claim_C8_witness :
    (rZ1.money_flow_volume = none ∨ rZ1.money_flow_volume = some 0)
      ∧ ∀ l₁ l₂ : List (Option ℚ),
          sumO (l₁ ++ rZ1.money_flow_volume :: l₂) = sumO (l₁ ++ l₂)
            ∧ posDays (l₁ ++ rZ1.money_flow_volume :: l₂) = posDays (l₁ ++ l₂)
            ∧ negDays (l₁ ++ rZ1.money_flow_volume :: l₂) = negDays (l₁ ++ l₂) :=
  claim_C8 dfZ rZ1 (by rw [eval_dfZ]; simp) (Or.inr rfl)

/-- Witness for C9 at `dfA` with the cap table `capsT`: the strength of
sector `"T"` is `15 / 200 * 100 = 15/2` per cent. -/
theorem claim_C9_witness :
    (∀ m : ℚ, capsT rT.sector = some m → 0 < m →
        (some (15 / 2) : Option ℚ) = some (rT.netFlow / m * 100))
      ∧ ((capsT rT.sector = some 0 ∨ capsT rT.sector = none) →
        (some (15 / 2) : Option ℚ) = none) :=
  claim_C9 capsT 0 dfA (rT, some (15 / 2)) (by rw [eval_dfA_strength]; simp)

/-- Witness for C10 at the empty frame. -/
theorem claim_C10_witness :
    (calculate_money_flow_run ⟨true, []⟩).1 = (⟨true, []⟩ : DataFrame)
      ∧ calculate_money_flow ⟨true, []⟩ = []
      ∧ (calculate_money_flow_run ⟨true, []⟩).2 = calculate_money_flow ⟨true, []⟩ :=
  ⟨(claim_C10 ⟨true, []⟩).1, (claim_C10 ⟨true, []⟩).2.1 (Or.inl rfl),
    (claim_C10 ⟨true, []⟩).2.2⟩

end MoneyFlow
